import Mathlib

/-!
Verification of `src/main.py` of meteosat-background-image-linux.

The Python module is shallowly embedded below.  Conventions:

* `datetime` values are embedded as a record of calendar fields
  (`DateTime`); where only hourly stepping matters (`iter_datetimes`,
  `newest`) a timestamp is embedded as an `Int` counting minutes, and
  `timedelta(hours=1)` becomes the constant `60`.
* Python functions that can raise (`str.rindex`, `int(...)`) are embedded
  as `Option`-returning functions, `none` standing for the raised
  `ValueError`.
* `exit(1)` in `newest` is embedded as the `none` result.
* Effectful capabilities (the file system's existence check, the HTTP
  fetch) are passed as explicit function parameters.
-/

namespace Meteosat

/-- Embedding of `class Quality(Enum)`: LOW='S4', MEDIUM='S2', HIGH='S1'. -/
inductive Quality where
  | LOW
  | MEDIUM
  | HIGH
deriving DecidableEq, Repr

/-- Embedding of `Quality.value`. -/
def Quality.value : Quality → String
  | .LOW => "S4"
  | .MEDIUM => "S2"
  | .HIGH => "S1"

/-- Embedding of `class Grid(Enum)`: USE='grid', DONT_USE='no_grid'. -/
inductive Grid where
  | USE
  | DONT_USE
deriving DecidableEq, Repr

/-- Embedding of `Grid.value`. -/
def Grid.value : Grid → String
  | .USE => "grid"
  | .DONT_USE => "no_grid"

/-- Embedding of a Python `datetime` as its calendar fields. -/
structure DateTime where
  year : Nat
  month : Nat
  day : Nat
  hour : Nat
  minute : Nat
deriving DecidableEq, Repr

/-- Validity bounds of the `datetime` values this program handles: the
field ranges enforced by Python's `datetime`, with the year restricted to
four decimal digits (`strftime` prints `%Y` as exactly four digits
there, and the program only ever works near `utcnow`). -/
def DateTime.Valid (d : DateTime) : Prop :=
  1000 ≤ d.year ∧ d.year ≤ 9999 ∧ 1 ≤ d.month ∧ d.month ≤ 12 ∧
    1 ≤ d.day ∧ d.day ≤ 31 ∧ d.hour ≤ 23 ∧ d.minute ≤ 59

instance (d : DateTime) : Decidable d.Valid := by
  unfold DateTime.Valid
  infer_instance

/-- Two-digit zero-padded decimal rendering, as `strftime` does for
`%m`, `%d`, `%H`, `%M` (the argument is below 100 for valid fields). -/
def pad2L (n : Nat) : List Char :=
  [Nat.digitChar (n / 10), Nat.digitChar (n % 10)]

/-- Four-digit zero-padded decimal rendering, as `strftime` does for
`%Y` on four-digit years. -/
def pad4L (n : Nat) : List Char :=
  [Nat.digitChar (n / 1000 % 10), Nat.digitChar (n / 100 % 10),
    Nat.digitChar (n / 10 % 10), Nat.digitChar (n % 10)]

/-- Embedding of `current_date.strftime('%Y-%m-%dT%H%M')`. -/
def strftimeLocal (d : DateTime) : String :=
  ⟨pad4L d.year ++ '-' :: pad2L d.month ++ '-' :: pad2L d.day ++
    'T' :: pad2L d.hour ++ pad2L d.minute⟩

/-- Embedding of `current_date.strftime('%Y_%-m_%-d')` (unpadded month
and day). -/
def strftimeServer (d : DateTime) : String :=
  toString d.year ++ "_" ++ toString d.month ++ "_" ++ toString d.day

/-- Embedding of `get_server_hour_string` (main.py lines 257-261). -/
def get_server_hour_string (hour : Nat) : String :=
  if hour = 0 then "0" else toString hour ++ "00"

/-- Embedding of `get_local_hour_string` (main.py lines 264-270).  Note
the source guard is the chained comparison `1 < hour <= 9`, which
excludes `hour = 1` from the zero-padded branch. -/
def get_local_hour_string (hour : Nat) : String :=
  if hour = 0 then "0"
  else if 1 < hour ∧ hour ≤ 9 then "0" ++ toString hour ++ "00"
  else toString hour ++ "00"

/-- Embedding of `get_server_filename` (main.py lines 273-280). -/
def get_server_filename (current_date : DateTime) (hour_string : String)
    (grid : Grid) (quality : Quality) : String :=
  let grid_text := if grid = Grid.USE then "_" ++ grid.value else ""
  strftimeServer current_date ++ "_" ++ hour_string ++ "_MSG4_16_" ++
    quality.value ++ grid_text ++ ".jpeg"

/-- Embedding of `get_local_filename` (main.py lines 283-290).  The
`hour_string` parameter is accepted, as in the source, where the body
never uses it (the timestamp comes from `strftime`). -/
def get_local_filename (current_date : DateTime) (hour_string : String)
    (grid : Grid) (quality : Quality) : String :=
  let grid_text := if grid = Grid.USE then "_" ++ grid.value else ""
  strftimeLocal current_date ++ "_MSG4_16_" ++ quality.value ++
    grid_text ++ ".jpeg"

/-- Embedding of the module constant `BASE_URL`. -/
def BASE_URL : String := "http://www.sat.dundee.ac.uk/xrit/000.0E/MSG"

/-- Embedding of the module constant `SAVE_DIR` (kept as the literal
tilde path; `expanduser` only rewrites the prefix and plays no role in
the claims). -/
def SAVE_DIR : String := "~/Pictures/meteosat"

/-- Embedding of `get_save_dir` (main.py lines 39-42), as the path
string `SAVE_DIR / grid.value / quality.value`; the `mkdir` side effect
is dropped. -/
def get_save_dir (grid : Grid) (quality : Quality) : String :=
  SAVE_DIR ++ "/" ++ grid.value ++ "/" ++ quality.value

/-- Embedding of `construct_from_date` (main.py lines 235-254), returning
the `(url, image_path, date_text)` triple as strings. -/
def construct_from_date (current_date : DateTime) (grid : Grid)
    (quality : Quality) : String × String × String :=
  let overview_url := BASE_URL ++ "/" ++ toString current_date.year ++ "/" ++
    toString current_date.month ++ "/" ++ toString current_date.day
  let server_hour_string := get_server_hour_string current_date.hour
  let server_filename :=
    get_server_filename current_date server_hour_string grid quality
  let url := overview_url ++ "/" ++ server_hour_string ++ "/" ++ server_filename
  let local_hour_string := get_local_hour_string current_date.hour
  let local_filename :=
    get_local_filename current_date local_hour_string grid quality
  let image_path := get_save_dir grid quality ++ "/" ++ local_filename
  let date_text := strftimeLocal current_date
  (url, image_path, date_text)

/-- Helper for `find_nth_char`: scan the remaining characters, keeping
the running occurrence `counter` and the current `index`, exactly as the
Python loop body does (increment on a match, then test `counter >= nth`). -/
def find_nth_char_go (char : Char) (nth : Nat) :
    List Char → Nat → Nat → Int
  | [], _, _ => -1
  | c :: rest, counter, index =>
    let counter := if c = char then counter + 1 else counter
    if nth ≤ counter then (index : Int)
    else find_nth_char_go char nth rest counter (index + 1)

/-- Embedding of `find_nth_char` (main.py lines 104-112): index of the
`nth_char`-th occurrence of `char`, or `-1` when there are fewer. -/
def find_nth_char (s : String) (nth_char : Nat := 4) (char : Char := '_') : Int :=
  find_nth_char_go char nth_char s.data 0 0

/-- Embedding of `str.rindex(c)` restricted to success as an `Option`:
the index of the last occurrence, `none` for the raised `ValueError`. -/
def rindexChar : List Char → Char → Option Nat
  | [], _ => none
  | x :: xs, c =>
    match rindexChar xs c with
    | some i => some (i + 1)
    | none => if x = c then some 0 else none

/-- Embedding of `int(s)` on the strings this program builds (no sign,
no whitespace, no inner underscores — these never occur at the single
call site, which runs after `replace('_', '')`): the decimal value when
every character is a digit and the string is nonempty, otherwise `none`
for the raised `ValueError`. -/
def pyInt (l : List Char) : Option Int :=
  if l ≠ [] ∧ l.all Char.isDigit then
    some ((l.foldl (fun a c => a * 10 + (c.toNat - 48)) 0 : Nat) : Int)
  else none

/-- Embedding of `filename_to_int` (main.py lines 81-101) on the file's
base name (the source first takes `filename.name`).  Python slicing
`s[:i]` with `i = -1` (the not-found result of `find_nth_char`) drops
the last character, hence the `dropLast` branch.  A `ValueError` raised
by `rindex` or by `int` is `none`. -/
def filename_to_int (filename : String) (max_hour_length : Nat := 4) :
    Option Int :=
  let chars := filename.data
  let cut := find_nth_char filename
  let chars := if cut < 0 then chars.dropLast else chars.take cut.toNat
  match rindexChar chars '_' with
  | none => none
  | some r =>
    let hour_start_index := r + 1
    let zeros_to_add : Int :=
      (max_hour_length : Int) - ((chars.length : Int) - (hour_start_index : Int))
    let chars := chars.take hour_start_index ++
      List.replicate zeros_to_add.toNat '0' ++ chars.drop hour_start_index
    pyInt (chars.filter (fun c => c ≠ '_'))

/-- Embedding of `iter_datetimes` (main.py lines 228-232) with a present
`until_date`: timestamps are minutes as `Int`, one hour is `60`.  The
generator's finite stream of yields becomes the returned list.  The
function is pure, so re-invocation trivially reproduces the sequence. -/
def iter_datetimes (start_date : Int) (until_date : Int) : List Int :=
  if start_date < until_date then []
  else start_date :: iter_datetimes (start_date - 60) until_date
termination_by (start_date - until_date + 60).toNat
decreasing_by
  simp_wf
  omega

/-- Embedding of `iter_datetimes` with `until_date = None`: the loop
never stops, and the `n`-th yielded timestamp is `start_date` minus `n`
hours. -/
def iter_datetimes_unbounded (start_date : Int) (n : Nat) : Int :=
  start_date - 60 * n

/-- Decidable equality of `Except` results, so that runs of the model
can be evaluated on concrete capabilities. -/
instance {ε α : Type} [DecidableEq ε] [DecidableEq α] :
    DecidableEq (Except ε α) := fun a b =>
  match a, b with
  | .error x, .error y =>
    if h : x = y then .isTrue (congrArg Except.error h)
    else .isFalse (fun hh => h (Except.error.inj hh))
  | .ok x, .ok y =>
    if h : x = y then .isTrue (congrArg Except.ok h)
    else .isFalse (fun hh => h (Except.ok.inj hh))
  | .error _, .ok _ => .isFalse (fun hh => Except.noConfusion hh)
  | .ok _, .error _ => .isFalse (fun hh => Except.noConfusion hh)

/-- Embedding of `download_maybe` (main.py lines 293-309): if the image
path already exists the result is success without any network call;
otherwise `requests.get` is consulted: it either raises — `response`
is `Except.error`, and no handler exists anywhere in the module, so the
exception propagates to the caller — or returns a response, which
yields success exactly for an ok status.  The printing and saving side
effects are dropped. -/
def download_maybe (file_exists : Bool) (response : Except Unit Bool) :
    Except Unit Bool :=
  if file_exists then Except.ok true
  else
    match response with
    | Except.error e => Except.error e
    | Except.ok ok => Except.ok ok

/-- Embedding of the `newest` command's search loop (main.py lines
208-225): walk back hour by hour from `start_date` through at most
`max_tries` candidates, stopping at the first one `download_maybe`
accepts.  The capabilities are the per-candidate existence check
`file_exists` and the `requests.get` result `response` (which may
raise).  `Except.ok (some t)` is success at candidate `t`;
`Except.ok none` is the `exit(1)` path taken when every examined
candidate fails; `Except.error` is an exception raised by the fetch and
caught nowhere, which aborts the walk at that candidate and crashes the
process. -/
def newest (max_tries : Nat) (start_date : Int) (file_exists : Int → Bool)
    (response : Int → Except Unit Bool) : Except Unit (Option Int) :=
  match max_tries with
  | 0 => Except.ok none
  | Nat.succ n =>
    match download_maybe (file_exists start_date) (response start_date) with
    | Except.error e => Except.error e
    | Except.ok true => Except.ok (some start_date)
    | Except.ok false => newest n (start_date - 60) file_exists response

/-- Result of one fetch of the capability behind `fetch` (main.py lines
188-196): `ok` is an HTTP 200 whose body is read, `badStatus` any other
status (the source prints and returns the error flag), `transportError`
an exception raised by the transport (`aiohttp` errors are caught
nowhere in the source). -/
inductive FetchRes where
  | ok
  | badStatus
  | transportError
deriving DecidableEq, Repr

/-- Per-task outcome observable from a completed fetch task. -/
inductive Outcome where
  | downloaded
  | failed
deriving DecidableEq, Repr

/-- Outcome of a fetch task whose fetch returned (did not raise). -/
def outcomeOf : FetchRes → Outcome
  | .ok => .downloaded
  | _ => .failed

/-- Embedding of `asyncio.gather(*tasks)` over the `bound_fetch` tasks
(main.py lines 170-196): each task consults the fetch capability once;
a raising task makes the awaited gather raise (`return_exceptions` is
left at `False`), which discards the aggregated list — the `.error`
branch.  Otherwise every task contributes its outcome. -/
def gatherFetch {τ : Type} (beh : τ → FetchRes) : List τ →
    Except Unit (List (τ × Outcome))
  | [] => .ok []
  | t :: ts =>
    match beh t with
    | .transportError => .error ()
    | .ok => (gatherFetch beh ts).map (fun l => (t, Outcome.downloaded) :: l)
    | .badStatus => (gatherFetch beh ts).map (fun l => (t, Outcome.failed) :: l)

/-- Observable result of `run` (main.py lines 150-171). -/
structure RunResult (τ : Type) where
  skips : List τ
  fetched : List τ
  gathered : Except Unit (List (τ × Outcome))
deriving Repr

/-- Embedding of `run` (main.py lines 150-171): the loop checks
`image_path.exists()` synchronously for each task before any fetch task
runs (no `await` occurs inside the loop, so no task starts before the
final gather is awaited).  `skips` are the tasks reported as already
present, `fetched` the tasks for which a `bound_fetch` task — hence
exactly one fetch call — is created, `gathered` the awaited gather. -/
def run {τ : Type} (ex : τ → Bool) (beh : τ → FetchRes) (ts : List τ) :
    RunResult τ :=
  { skips := ts.filter (fun t => ex t)
    fetched := ts.filter (fun t => !ex t)
    gathered := gatherFetch beh (ts.filter (fun t => !ex t)) }

/-- Phase of one `bound_fetch` task with respect to the semaphore
(main.py lines 174-186): `idle` before `async with semaphore` is
entered, `inflight` while holding the semaphore and running `fetch`,
`done` after release. -/
inductive Phase where
  | idle
  | inflight
  | done
deriving DecidableEq, Repr

/-- Number of fetch calls in flight: tasks currently holding the
semaphore. -/
def countInflight (ph : List Phase) : Nat :=
  ph.count Phase.inflight

/-- Interleaving semantics of the semaphore discipline of `run` /
`bound_fetch`: a state is the free permit count plus each task's phase.
`acquire` needs a free permit (`async with semaphore` entry), `release`
returns it (exit).  Any scheduling order and any fetch behaviour is a
sequence of these steps. -/
inductive SemStep : Nat × List Phase → Nat × List Phase → Prop where
  | acquire (p : Nat) (ph : List Phase) (i : Nat) :
      ph[i]? = some Phase.idle →
      SemStep (p + 1, ph) (p, ph.set i Phase.inflight)
  | release (p : Nat) (ph : List Phase) (i : Nat) :
      ph[i]? = some Phase.inflight →
      SemStep (p, ph) (p + 1, ph.set i Phase.done)

/-- Initial state of `run`: `asyncio.Semaphore(n_concurrent_downloads)`
full, every task yet to start. -/
def initState (n_concurrent_downloads tasks : Nat) : Nat × List Phase :=
  (n_concurrent_downloads, List.replicate tasks Phase.idle)

/-- Reachability under the semaphore transition system. -/
def SemReachable (s s' : Nat × List Phase) : Prop :=
  Relation.ReflTransGen SemStep s s'

/-! ## Theorems -/

/-- C1: evaluation of `get_local_hour_string` at every branch, at the
failing input in particular: the chained guard `1 < hour <= 9` excludes
hour 1, so the code yields `"100"` where the spec (and the stated
purpose of keeping lexical order chronological) requires `"0100"`;
hours 0, 2-9 and 10-23 behave as the spec says. -/
theorem get_local_hour_string_eval :
    get_local_hour_string 1 = "100" ∧
    get_local_hour_string 0 = "0" ∧
    get_local_hour_string 2 = "0200" ∧
    get_local_hour_string 9 = "0900" ∧
    get_local_hour_string 10 = "1000" ∧
    get_local_hour_string 23 = "2300" := by
  refine ⟨rfl, rfl, ?_, ?_, ?_, ?_⟩ <;> decide

/-- C2: `filename_to_int` raises `ValueError` (embedded as `none`) on
the very file names `get_local_filename` produces, with and without the
grid suffix, at two timestamps the claim requires it to order (hour 1
and hour 10 of 2019-05-05, quality LOW); no sort key exists at all, so
no chronological order of keys is produced.  (On the obsolete
underscore-separated name format documented in the function's own
comments it does return keys, as the last two conjuncts witness.) -/
theorem filename_to_int_on_local_names :
    filename_to_int
      (get_local_filename ⟨2019, 5, 5, 1, 0⟩ (get_local_hour_string 1)
        Grid.DONT_USE Quality.LOW) = none ∧
    filename_to_int
      (get_local_filename ⟨2019, 5, 5, 10, 0⟩ (get_local_hour_string 10)
        Grid.DONT_USE Quality.LOW) = none ∧
    filename_to_int
      (get_local_filename ⟨2019, 5, 5, 1, 0⟩ (get_local_hour_string 1)
        Grid.USE Quality.LOW) = none ∧
    filename_to_int
      (get_local_filename ⟨2019, 5, 5, 10, 0⟩ (get_local_hour_string 10)
        Grid.USE Quality.LOW) = none ∧
    filename_to_int "2019_5_5_100_MSG4_16_S1.jpeg" = some 2019550100 ∧
    filename_to_int "2019_5_5_1000_MSG4_16_S1.jpeg" = some 2019551000 := by
  refine ⟨?_, ?_, ?_, ?_, ?_, ?_⟩ <;> decide

/-- C8: the remote hour segment is the literal `"0"` for hour 0 and the
unpadded `"<h>00"` otherwise, and for hour 22 the full upstream URL
contains the path segment `2200`. -/
theorem get_server_hour_string_spec :
    (∀ h : Nat, get_server_hour_string h =
      if h = 0 then "0" else toString h ++ "00") ∧
    (construct_from_date ⟨2019, 5, 5, 22, 0⟩ Grid.USE Quality.LOW).1 =
      "http://www.sat.dundee.ac.uk/xrit/000.0E/MSG/2019/5/5/2200/2019_5_5_2200_MSG4_16_S4_grid.jpeg" := by
  exact ⟨fun h => rfl, by decide⟩

/-- C10: `get_local_filename` ignores its `hour_string` argument: any
two values give the same name, which is the zero-padded
`%Y-%m-%dT%H%M` timestamp, then `_MSG4_16_`, the quality tag, the
`_grid` suffix exactly for the grid variant, and `.jpeg`. -/
theorem get_local_filename_ignores_hour_string :
    ∀ (d : DateTime) (hs1 hs2 : String) (g : Grid) (q : Quality),
      get_local_filename d hs1 g q = get_local_filename d hs2 g q ∧
      get_local_filename d hs1 g q =
        strftimeLocal d ++ "_MSG4_16_" ++ q.value ++
          (if g = Grid.USE then "_" ++ g.value else "") ++ ".jpeg" := by
  intro d hs1 hs2 g q
  exact ⟨rfl, rfl⟩

/-- C3 counterexample: `max_tries = 10` and a fetch capability that
raises a transport error at the second candidate and would succeed at
the fifth (`-240`, four hours back).  The claim says the walk treats a
failing fetch as a failed candidate and continues, returning the fifth
timestamp; in the code nothing catches the `requests.get` exception,
so the walk aborts at the second candidate: the result is the
propagated exception, not the fifth timestamp. -/
theorem newest_transport_error_crashes :
    newest 10 0 (fun _ => false)
      (fun t => if t = -60 then Except.error () else Except.ok (t == -240)) =
      Except.error () ∧
    newest 10 0 (fun _ => false)
      (fun t => if t = -60 then Except.error () else Except.ok (t == -240)) ≠
      Except.ok (some (-240)) := by
  refine ⟨?_, ?_⟩ <;> decide

/-- C3 helper (amended law): when the fetch capability never raises,
the first `max_tries` candidates the loop examines are `start_date`,
one hour less, two hours less, ..., and the result is the first
candidate whose fetch-or-skip succeeds. -/
theorem newest_eq_find? (m : Nat) :
    ∀ (s : Int) (fe : Int → Bool) (ro : Int → Except Unit Bool),
      (∀ t, ro t ≠ Except.error ()) →
      newest m s fe ro =
        Except.ok (((List.range m).map (fun k : Nat => s - 60 * (k : Int))).find?
          (fun t => decide (download_maybe (fe t) (ro t) = Except.ok true))) := by
  induction m with
  | zero => intro s fe ro _; rfl
  | succ n ih =>
    intro s fe ro hnr
    rw [List.range_succ_eq_map]
    simp only [List.map_cons, List.map_map, List.find?_cons, Int.Nat.cast_ofNat_Int,
      Int.mul_zero, Int.sub_zero]
    have hmap : (List.range n).map ((fun k : Nat => s - 60 * (k : Int)) ∘ Nat.succ) =
        (List.range n).map (fun k : Nat => s - 60 - 60 * (k : Int)) := by
      apply List.map_congr_left
      intro a _
      simp only [Function.comp_apply]
      push_cast
      ring
    rw [hmap]
    show (match download_maybe (fe s) (ro s) with
      | Except.error e => Except.error e
      | Except.ok true => Except.ok (some s)
      | Except.ok false => newest n (s - 60) fe ro) = _
    cases hro : ro s with
    | error e =>
      cases e
      exact absurd hro (hnr s)
    | ok b =>
      have hd : download_maybe (fe s) (Except.ok b) = Except.ok (fe s || b) := by
        cases hfe : fe s <;> simp [download_maybe, hfe]
      rw [hd]
      cases hsb : (fe s || b) with
      | false =>
        simp only [show decide ((Except.ok false : Except Unit Bool) =
          Except.ok true) = false from by decide]
        exact ih (s - 60) fe ro hnr
      | true =>
        simp

/-- C3 (amended): for a fetch capability that never raises, `newest`
examines at most `max_tries` candidate timestamps, walking back one
hour per step from `start_date`, and returns the first one whose
fetch-or-skip succeeds (the `find?` characterization); with success
only at the fifth candidate it returns that fifth timestamp under
`max_tries = 10`, and under `max_tries = 3` every examined candidate
fails and the result is the embedded `exit(1)` failure — the loop is
total, never infinite, and the exhausted budget is surfaced, not
swallowed.  A raising fetch, by contrast, aborts the walk (see the
counterexample theorem above). -/
theorem newest_resolver_amended_spec :
    (∀ (m : Nat) (s : Int) (fe : Int → Bool) (ro : Int → Except Unit Bool),
      (∀ t, ro t ≠ Except.error ()) →
      newest m s fe ro =
        Except.ok (((List.range m).map (fun k : Nat => s - 60 * (k : Int))).find?
          (fun t => decide (download_maybe (fe t) (ro t) = Except.ok true)))) ∧
    newest 10 0 (fun _ => false) (fun t => Except.ok (t == -240)) =
      Except.ok (some (-240)) ∧
    newest 3 0 (fun _ => false) (fun t => Except.ok (t == -240)) =
      Except.ok none := by
  refine ⟨fun m => newest_eq_find? m, by decide, by decide⟩

/-- C3 witness: the amended theorem applied to the never-raising
capability that succeeds only at the fifth candidate, with
`max_tries = 10` and start 0. -/
theorem newest_resolver_amended_witness :
    (∀ t : Int, (fun u : Int => (Except.ok (u == -240) : Except Unit Bool)) t ≠
      Except.error ()) ∧
    newest 10 0 (fun _ => false) (fun u => Except.ok (u == -240)) =
      Except.ok (((List.range 10).map (fun k : Nat => (0 : Int) - 60 * (k : Int))).find?
        (fun t => decide (download_maybe ((fun _ : Int => false) t)
          ((fun u : Int => (Except.ok (u == -240) : Except Unit Bool)) t) =
            Except.ok true))) :=
  ⟨fun t h => Except.noConfusion h,
    newest_resolver_amended_spec.1 10 0 (fun _ => false)
      (fun u => Except.ok (u == -240)) (fun t h => Except.noConfusion h)⟩

/-- C6 helper: the walk starts at `start_date` when the bound allows
any element at all. -/
theorem iter_datetimes_head (s u : Int) (h : u ≤ s) :
    (iter_datetimes s u).head? = some s := by
  rw [iter_datetimes, if_neg (by omega)]
  rfl

/-- C6 helper: every yielded timestamp is at least the lower bound. -/
theorem iter_datetimes_mem_ge (s u : Int) :
    ∀ x ∈ iter_datetimes s u, u ≤ x := by
  induction s, u using iter_datetimes.induct with
  | case1 s u h => rw [iter_datetimes, if_pos h]; simp
  | case2 s u h ih =>
    rw [iter_datetimes, if_neg h]
    intro x hx
    rcases List.mem_cons.mp hx with rfl | hx
    · omega
    · exact ih x hx

/-- C6 helper: each step of the walk is exactly one hour down. -/
theorem iter_datetimes_chain (s u : Int) :
    List.Chain' (fun a b => b = a - 60) (iter_datetimes s u) := by
  induction s, u using iter_datetimes.induct with
  | case1 s u h => rw [iter_datetimes, if_pos h]; exact List.chain'_nil
  | case2 s u h ih =>
    rw [iter_datetimes, if_neg h]
    rw [List.chain'_cons']
    refine ⟨?_, ih⟩
    intro b hb
    by_cases h2 : s - 60 < u
    · rw [iter_datetimes, if_pos h2] at hb; simp at hb
    · rw [iter_datetimes_head (s - 60) u (by omega)] at hb
      simp at hb
      omega

/-- C6 helper: the element after the last yielded one would be below
the bound, so the walk stops exactly at the inclusive lower bound. -/
theorem iter_datetimes_last (s u : Int) :
    ∀ x, (iter_datetimes s u).getLast? = some x → x - 60 < u := by
  induction s, u using iter_datetimes.induct with
  | case1 s u h => rw [iter_datetimes, if_pos h]; intro x hx; simp at hx
  | case2 s u h ih =>
    rw [iter_datetimes, if_neg h]
    intro x hx
    by_cases h2 : s - 60 < u
    · rw [iter_datetimes, if_pos h2] at hx
      simp at hx
      omega
    · have hunf : iter_datetimes (s - 60) u =
          (s - 60) :: iter_datetimes (s - 60 - 60) u := by
        rw [iter_datetimes, if_neg h2]
      rw [hunf, List.getLast?_cons_cons] at hx
      exact ih x (by rw [hunf]; exact hx)

/-- C6: with an `until` bound at or below the start, the walk begins at
`start` inclusive, decreases by exactly one hour per step, keeps every
element at or above `until`, and stops exactly when the next element
would drop below `until`; with no bound the stream of yields is
infinite, starting at `start` and losing one hour per step.  Both
embeddings are pure functions, so re-invocation reproduces the same
sequence. -/
theorem iter_datetimes_walk (s u : Int) (h : u ≤ s) :
    (iter_datetimes s u).head? = some s ∧
    List.Chain' (fun a b => b = a - 60) (iter_datetimes s u) ∧
    (∀ x ∈ iter_datetimes s u, u ≤ x) ∧
    (∀ x, (iter_datetimes s u).getLast? = some x → x - 60 < u) ∧
    iter_datetimes_unbounded s 0 = s ∧
    (∀ n : Nat,
      iter_datetimes_unbounded s (n + 1) = iter_datetimes_unbounded s n - 60) := by
  refine ⟨iter_datetimes_head s u h, iter_datetimes_chain s u,
    iter_datetimes_mem_ge s u, iter_datetimes_last s u, ?_, ?_⟩
  · simp [iter_datetimes_unbounded]
  · intro n
    simp only [iter_datetimes_unbounded]
    push_cast
    ring

/-- C6 witness: the walk theorem applied at start 120 and bound 0 (which
yields the three timestamps 120, 60, 0). -/
theorem iter_datetimes_walk_witness :
    (0 : Int) ≤ 120 ∧
    ((iter_datetimes 120 0).head? = some 120 ∧
    List.Chain' (fun a b => b = a - 60) (iter_datetimes 120 0) ∧
    (∀ x ∈ iter_datetimes 120 0, (0 : Int) ≤ x) ∧
    (∀ x, (iter_datetimes 120 0).getLast? = some x → x - 60 < 0) ∧
    iter_datetimes_unbounded 120 0 = 120 ∧
    (∀ n : Nat,
      iter_datetimes_unbounded 120 (n + 1) = iter_datetimes_unbounded 120 n - 60)) :=
  ⟨by decide, iter_datetimes_walk 120 0 (by decide)⟩

/-- C4/C5 helper: when no task's fetch raises, the gather returns, and
each fetched task contributes exactly its own outcome, in order. -/
theorem gatherFetch_ok {τ : Type} (beh : τ → FetchRes) :
    ∀ l : List τ, (∀ t ∈ l, beh t ≠ FetchRes.transportError) →
      gatherFetch beh l = Except.ok (l.map (fun t => (t, outcomeOf (beh t)))) := by
  intro l
  induction l with
  | nil => intro _; rfl
  | cons t ts ih =>
    intro hnt
    have hne : beh t ≠ FetchRes.transportError := hnt t (List.mem_cons_self t ts)
    have hrest := ih (fun u hu => hnt u (List.mem_cons_of_mem t hu))
    rcases hb : beh t with _ | _ | _
    · simp [gatherFetch, hb, hrest, outcomeOf, Except.map]
    · simp [gatherFetch, hb, hrest, outcomeOf, Except.map]
    · exact absurd hb hne

/-- C4: a task whose local path exists is reported as a skip (already
present) and is not among the tasks a fetch call is issued for; and if
every task in the batch already exists then the skips are the whole
batch, no fetch call at all is issued, and the awaited gather returns
the empty aggregate — the idempotent re-run. -/
theorem run_already_present {τ : Type} (ex : τ → Bool) (beh : τ → FetchRes)
    (ts : List τ) (t : τ) (ht : t ∈ ts) (hex : ex t = true) :
    t ∈ (run ex beh ts).skips ∧ t ∉ (run ex beh ts).fetched ∧
    ((∀ u ∈ ts, ex u = true) →
      (run ex beh ts).skips = ts ∧ (run ex beh ts).fetched = [] ∧
        (run ex beh ts).gathered = Except.ok []) := by
  refine ⟨?_, ?_, ?_⟩
  · exact List.mem_filter.mpr ⟨ht, hex⟩
  · intro hmem
    have := (List.mem_filter.mp hmem).2
    simp [hex] at this
  · intro hall
    have hfet : ts.filter (fun u => !ex u) = [] := by
      rw [List.filter_eq_nil_iff]
      intro a ha
      simp [hall a ha]
    refine ⟨?_, hfet, ?_⟩
    · show ts.filter (fun u => ex u) = ts
      rw [List.filter_eq_self]
      exact hall
    · show gatherFetch beh (ts.filter (fun u => !ex u)) = Except.ok []
      rw [hfet]
      rfl

/-- C4 witness: the theorem applied to a fully-downloaded batch of two
tasks: both are skips, the fetch list is empty (zero network calls) and
the gather returns the empty aggregate. -/
theorem run_already_present_witness :
    (0 : Nat) ∈ [0, 1] ∧ (fun _ : Nat => true) 0 = true ∧
    (0 ∈ (run (fun _ : Nat => true) (fun _ => FetchRes.ok) [0, 1]).skips ∧
    0 ∉ (run (fun _ : Nat => true) (fun _ => FetchRes.ok) [0, 1]).fetched ∧
    ((∀ u ∈ [0, 1], (fun _ : Nat => true) u = true) →
      (run (fun _ : Nat => true) (fun _ => FetchRes.ok) [0, 1]).skips = [0, 1] ∧
      (run (fun _ : Nat => true) (fun _ => FetchRes.ok) [0, 1]).fetched = [] ∧
      (run (fun _ : Nat => true) (fun _ => FetchRes.ok) [0, 1]).gathered =
        Except.ok [])) :=
  ⟨by decide, rfl,
    run_already_present (fun _ => true) (fun _ => FetchRes.ok) [0, 1] 0
      (by decide) rfl⟩

/-- C5 counterexample: a batch of one task whose path does not exist
and whose fetch raises a transport error.  The claim says the task
yields a `Failed` outcome and the batch completes with an outcome for
every task; in the code no exception handler exists between the raise
and `asyncio.gather`, so the awaited gather raises and no aggregate of
outcomes is produced at all. -/
theorem run_transport_error_aborts :
    (run (fun _ : Nat => false) (fun _ => FetchRes.transportError)
      [0]).gathered = Except.error () := rfl

/-- C5 (amended): restricted to fetch failures the code actually
captures — non-success HTTP statuses — the batch runs to completion:
the gather returns one outcome per issued fetch call in order (so a
failing task never aborts or retries, and siblings keep their
outcomes), each fetched task with a bad status yields `failed`, each
with a success yields `downloaded`, and for a non-existing task the
number of fetch calls equals its multiplicity in the batch (exactly one
call per task instance, no retry). -/
theorem run_fetch_failures {τ : Type} [DecidableEq τ] (ex : τ → Bool)
    (beh : τ → FetchRes) (ts : List τ)
    (hnt : ∀ t ∈ ts, beh t ≠ FetchRes.transportError) :
    (run ex beh ts).gathered =
      Except.ok ((run ex beh ts).fetched.map (fun t => (t, outcomeOf (beh t)))) ∧
    (∀ t ∈ ts, ex t = false → beh t = FetchRes.badStatus →
      (t, Outcome.failed) ∈
        (run ex beh ts).fetched.map (fun t => (t, outcomeOf (beh t)))) ∧
    (∀ t, ex t = false → (run ex beh ts).fetched.count t = ts.count t) := by
  refine ⟨?_, ?_, ?_⟩
  · exact gatherFetch_ok beh (ts.filter (fun u => !ex u))
      (fun u hu => hnt u (List.mem_filter.mp hu).1)
  · intro t ht hexf hbs
    refine List.mem_map.mpr ⟨t, List.mem_filter.mpr ⟨ht, by simp [hexf]⟩, ?_⟩
    simp [outcomeOf, hbs]
  · intro t hexf
    exact List.count_filter (by simp [hexf])

/-- C5 witness: the amended theorem applied to a two-task batch whose
fetch capability always returns a bad status: the batch completes and
both tasks report `failed`. -/
theorem run_fetch_failures_witness :
    (∀ t ∈ ([0, 1] : List Nat),
      (fun _ : Nat => FetchRes.badStatus) t ≠ FetchRes.transportError) ∧
    ((run (fun _ : Nat => false) (fun _ => FetchRes.badStatus) [0, 1]).gathered =
      Except.ok
        ((run (fun _ : Nat => false) (fun _ => FetchRes.badStatus) [0, 1]).fetched.map
          (fun t => (t, outcomeOf ((fun _ : Nat => FetchRes.badStatus) t)))) ∧
    (∀ t ∈ ([0, 1] : List Nat), (fun _ : Nat => false) t = false →
      (fun _ : Nat => FetchRes.badStatus) t = FetchRes.badStatus →
      (t, Outcome.failed) ∈
        (run (fun _ : Nat => false) (fun _ => FetchRes.badStatus) [0, 1]).fetched.map
          (fun t => (t, outcomeOf ((fun _ : Nat => FetchRes.badStatus) t)))) ∧
    (∀ t, (fun _ : Nat => false) t = false →
      (run (fun _ : Nat => false) (fun _ => FetchRes.badStatus) [0, 1]).fetched.count t =
        ([0, 1] : List Nat).count t)) :=
  ⟨by decide,
    run_fetch_failures (fun _ => false) (fun _ => FetchRes.badStatus) [0, 1]
      (by decide)⟩

/-- C9 helper: acquiring the semaphore turns one `idle` task `inflight`
and raises the in-flight count by exactly one. -/
theorem count_set_acquire :
    ∀ (l : List Phase) (i : Nat), l[i]? = some Phase.idle →
      countInflight (l.set i Phase.inflight) = countInflight l + 1 := by
  intro l
  induction l with
  | nil => intro i h; simp at h
  | cons a l ih =>
    intro i h
    cases i with
    | zero =>
      simp at h
      subst h
      simp [countInflight, List.count_cons]
    | succ n =>
      simp at h
      have := ih n h
      simp only [List.set_cons_succ, countInflight, List.count_cons] at *
      omega

/-- C9 helper: releasing the semaphore retires one `inflight` task and
lowers the in-flight count by exactly one. -/
theorem count_set_release :
    ∀ (l : List Phase) (i : Nat), l[i]? = some Phase.inflight →
      countInflight (l.set i Phase.done) + 1 = countInflight l := by
  intro l
  induction l with
  | nil => intro i h; simp at h
  | cons a l ih =>
    intro i h
    cases i with
    | zero =>
      simp at h
      subst h
      simp [countInflight, List.count_cons]
    | succ n =>
      simp at h
      have := ih n h
      simp only [List.set_cons_succ, countInflight, List.count_cons] at *
      omega

/-- C9 helper: every step preserves the invariant that free permits
plus in-flight fetches equal the configured concurrency limit. -/
theorem semStep_inv {n : Nat} {s s' : Nat × List Phase}
    (hstep : SemStep s s') (h : s.1 + countInflight s.2 = n) :
    s'.1 + countInflight s'.2 = n := by
  cases hstep with
  | acquire p ph i hi =>
    have := count_set_acquire ph i hi
    simp at h ⊢
    omega
  | release p ph i hi =>
    have := count_set_release ph i hi
    simp at h ⊢
    omega

/-- C9: in every state reachable from the start of a batch — any number
of tasks, any interleaving of semaphore acquisitions and releases,
hence any behaviour and duration of the individual fetches — the number
of fetch calls in flight never exceeds `n_concurrent_downloads`. -/
theorem fetchgate_concurrency_bounded (n tasks : Nat)
    (s : Nat × List Phase) (h : SemReachable (initState n tasks) s) :
    countInflight s.2 ≤ n := by
  have inv : s.1 + countInflight s.2 = n := by
    induction h with
    | refl => simp [initState, countInflight, List.count_replicate]
    | tail hpre hstep ih => exact semStep_inv hstep ih
  omega

/-- C9 witness: the bound theorem applied to the initial state of a
batch of three tasks with concurrency limit two. -/
theorem fetchgate_concurrency_bounded_witness :
    SemReachable (initState 2 3) (initState 2 3) ∧
    countInflight (initState 2 3).2 ≤ 2 :=
  ⟨Relation.ReflTransGen.refl,
    fetchgate_concurrency_bounded 2 3 (initState 2 3)
      Relation.ReflTransGen.refl⟩

/-- C7 helper: string append concatenates the character data. -/
theorem data_append (a b : String) : (a ++ b).data = a.data ++ b.data := rfl

/-- C7 helper: decimal digit value of a digit character. -/
def undigit (c : Char) : Nat := c.toNat - 48

/-- C7 helper: `undigit` inverts `Nat.digitChar` on decimal digits. -/
theorem undigit_digitChar : ∀ n, n < 10 → undigit (Nat.digitChar n) = n := by
  decide

/-- C7 helper: two-digit zero-padded rendering is injective below 100. -/
theorem pad2L_inj (a b : Nat) (ha : a ≤ 99) (hb : b ≤ 99)
    (h : pad2L a = pad2L b) : a = b := by
  simp only [pad2L, List.cons.injEq, and_true] at h
  obtain ⟨h1, h2⟩ := h
  have e1 : a / 10 = b / 10 := by
    have := congrArg undigit h1
    rwa [undigit_digitChar _ (by omega), undigit_digitChar _ (by omega)] at this
  have e2 : a % 10 = b % 10 := by
    have := congrArg undigit h2
    rwa [undigit_digitChar _ (by omega), undigit_digitChar _ (by omega)] at this
  omega

/-- C7 helper: four-digit zero-padded rendering is injective below
10000. -/
theorem pad4L_inj (a b : Nat) (ha : a ≤ 9999) (hb : b ≤ 9999)
    (h : pad4L a = pad4L b) : a = b := by
  simp only [pad4L, List.cons.injEq, and_true] at h
  obtain ⟨h1, h2, h3, h4⟩ := h
  have e1 : a / 1000 % 10 = b / 1000 % 10 := by
    have := congrArg undigit h1
    rwa [undigit_digitChar _ (by omega), undigit_digitChar _ (by omega)] at this
  have e2 : a / 100 % 10 = b / 100 % 10 := by
    have := congrArg undigit h2
    rwa [undigit_digitChar _ (by omega), undigit_digitChar _ (by omega)] at this
  have e3 : a / 10 % 10 = b / 10 % 10 := by
    have := congrArg undigit h3
    rwa [undigit_digitChar _ (by omega), undigit_digitChar _ (by omega)] at this
  have e4 : a % 10 = b % 10 := by
    have := congrArg undigit h4
    rwa [undigit_digitChar _ (by omega), undigit_digitChar _ (by omega)] at this
  omega

/-- C7 helper: the two-character quality tag determines the quality. -/
theorem quality_value_data_inj (q1 q2 : Quality)
    (h : (Quality.value q1).data = (Quality.value q2).data) : q1 = q2 := by
  cases q1 <;> cases q2 <;> first | rfl | exact absurd h (by decide)

/-- C7 helper: the character data of a produced local file name, in
right-associated normal form. -/
theorem local_filename_data (d : DateTime) (hs : String) (g : Grid) (q : Quality) :
    (get_local_filename d hs g q).data =
      pad4L d.year ++ '-' :: (pad2L d.month ++ '-' :: (pad2L d.day ++
        'T' :: (pad2L d.hour ++ (pad2L d.minute ++ ("_MSG4_16_".data ++
          ((Quality.value q).data ++
            ((if g = Grid.USE then "_" ++ g.value else "").data ++
              ".jpeg".data))))))) := by
  simp [get_local_filename, strftimeLocal, data_append, List.append_assoc]

/-- C7 helper: every quality tag is two characters long. -/
theorem quality_value_data_length (q : Quality) :
    (Quality.value q).data.length = 2 := by
  cases q <;> rfl

/-- C7: on valid timestamps the local file name is a function of the
timestamp, grid flag and quality alone (the backward direction holds
for arbitrary `hour_string` arguments, so repeated invocations always
agree), and it is injective: the names of two requests coincide exactly
when timestamp, grid flag and quality all coincide. -/
theorem get_local_filename_injective (d1 d2 : DateTime) (hs1 hs2 : String)
    (g1 g2 : Grid) (q1 q2 : Quality) (hv1 : d1.Valid) (hv2 : d2.Valid) :
    get_local_filename d1 hs1 g1 q1 = get_local_filename d2 hs2 g2 q2 ↔
      (d1 = d2 ∧ g1 = g2 ∧ q1 = q2) := by
  constructor
  · intro h
    have E := congrArg String.data h
    rw [local_filename_data, local_filename_data] at E
    obtain ⟨v1a, v1b, v1c, v1d, v1e, v1f, v1g, v1h⟩ := hv1
    obtain ⟨v2a, v2b, v2c, v2d, v2e, v2f, v2g, v2h⟩ := hv2
    obtain ⟨hy, E⟩ := List.append_inj E rfl
    injection E with _ E
    obtain ⟨hmo, E⟩ := List.append_inj E rfl
    injection E with _ E
    obtain ⟨hda, E⟩ := List.append_inj E rfl
    injection E with _ E
    obtain ⟨hho, E⟩ := List.append_inj E rfl
    obtain ⟨hmi, E⟩ := List.append_inj E rfl
    have E := List.append_cancel_left E
    obtain ⟨hq, E⟩ := List.append_inj E
      (by rw [quality_value_data_length, quality_value_data_length])
    refine ⟨?_, ?_, quality_value_data_inj q1 q2 hq⟩
    · have ey := pad4L_inj _ _ (by omega) (by omega) hy
      have emo := pad2L_inj _ _ (by omega) (by omega) hmo
      have eda := pad2L_inj _ _ (by omega) (by omega) hda
      have eho := pad2L_inj _ _ (by omega) (by omega) hho
      have emi := pad2L_inj _ _ (by omega) (by omega) hmi
      cases d1
      cases d2
      simp only [DateTime.mk.injEq]
      exact ⟨ey, emo, eda, eho, emi⟩
    · cases g1 <;> cases g2 <;> first | rfl | exact absurd E (by decide)
  · rintro ⟨rfl, rfl, rfl⟩
    rfl

/-- C7 witness: the injectivity theorem applied at hours 1 and 2 of
2019-05-05 with distinct `hour_string` arguments: since the timestamps
differ, the names differ. -/
theorem get_local_filename_injective_witness :
    DateTime.Valid ⟨2019, 5, 5, 1, 0⟩ ∧ DateTime.Valid ⟨2019, 5, 5, 2, 0⟩ ∧
    (get_local_filename ⟨2019, 5, 5, 1, 0⟩ "a" Grid.USE Quality.LOW =
        get_local_filename ⟨2019, 5, 5, 2, 0⟩ "b" Grid.USE Quality.LOW ↔
      ((⟨2019, 5, 5, 1, 0⟩ : DateTime) = ⟨2019, 5, 5, 2, 0⟩ ∧
        Grid.USE = Grid.USE ∧ Quality.LOW = Quality.LOW)) :=
  ⟨by decide, by decide,
    get_local_filename_injective ⟨2019, 5, 5, 1, 0⟩ ⟨2019, 5, 5, 2, 0⟩
      "a" "b" Grid.USE Grid.USE Quality.LOW Quality.LOW
      (by decide) (by decide)⟩

end Meteosat
